import Mathlib

/-!
Shallow embedding of the tag-indexing and static-page-generation logic of
the blog's build script: the exports.createPages hook of gatsby-node.js
together with the tag template's BlogPostsByTag page query.

Modelling decisions:
  - frontmatter dates are modelled as natural-number timestamps; the GraphQL
    date sorts (ASC in the createPages query, DESC in BlogPostsByTag) are
    modelled by a stable sort on that timestamp, ties kept in source order;
  - a JS object literal passed as a page context is modelled as the ordered
    list of its fields, so that the shape of the context is observable;
  - the JS Set used to collect tags is modelled as an insertion-ordered
    duplicate-free list, matching Set insertion-order iteration;
  - the query failure branch (reporter.panicOnBuild) is modelled with Except.
-/

/-- A markdown post node as the content queries return it: Gatsby node id,
URL slug (field fields.slug), frontmatter title, description and date, and
the optional frontmatter tags list (absent when the post declares none). -/
structure Post where
  id : String
  slug : String
  title : String
  description : String
  date : Nat
  tags : Option (List String)
deriving DecidableEq

/-- A value stored in a page context object: a plain string, or a nullable
string (previousPostId / nextPostId, where none models JS null). -/
inductive CtxVal where
  | str (s : String)
  | optStr (s : Option String)
deriving DecidableEq

/-- One createPage registration call: the URL path, the template component,
and the context object modelled as the ordered field list of the JS object
literal that the source passes. -/
structure PageCall where
  path : String
  component : String
  context : List (String × CtxVal)
deriving DecidableEq

/-- Tags of a post, a missing frontmatter tags field read as the empty list:
this is how both the tags?.forEach loop and the GraphQL in-filter treat a
null tags field. -/
def tagsOf (p : Post) : List String := p.tags.getD []

/-- Date-ascending comparison, the sort of the createPages query
allMarkdownRemark(sort: \x7b frontmatter: \x7b date: ASC \x7d \x7d). -/
def dateLe (p q : Post) : Prop := p.date ≤ q.date

instance : DecidableRel dateLe := fun p q => Nat.decLe p.date q.date

instance : IsTotal Post dateLe := ⟨fun p q => Nat.le_total p.date q.date⟩

instance : IsTrans Post dateLe := ⟨fun _ _ _ h h2 => Nat.le_trans h h2⟩

/-- Date-descending comparison, the sort of the BlogPostsByTag query. -/
def dateGe (p q : Post) : Prop := q.date ≤ p.date

instance : DecidableRel dateGe := fun p q => Nat.decLe q.date p.date

instance : IsTotal Post dateGe := ⟨fun p q => Nat.le_total q.date p.date⟩

instance : IsTrans Post dateGe := ⟨fun _ _ _ h h2 => Nat.le_trans h2 h⟩

/-- The createPages content query allMarkdownRemark(sort: date ASC,
limit: 1000): the content source sorted by date ascending (stable, ties in
source order) and truncated to the first 1000 posts. -/
def loadPosts (src : List Post) : List Post :=
  (List.insertionSort dateLe src).take 1000

/-- The BlogPostsByTag page query of the tag template: every post of the
content source whose tags contain the given tag, sorted by date descending;
this query carries no limit. -/
def blogPostsByTag (src : List Post) (tag : String) : List Post :=
  List.insertionSort dateGe (src.filter (fun p => decide (tag ∈ tagsOf p)))

/-- tags.add(tag) on the JS Set: append the tag unless already present (JS
Sets keep first-insertion order and ignore duplicates). -/
def addTag (acc : List String) (t : String) : List String :=
  if t ∈ acc then acc else acc ++ [t]

/-- post.frontmatter.tags?.forEach((tag) => tags.add(tag)) for one post: a
missing tags field contributes nothing. -/
def addPostTags (acc : List String) (p : Post) : List String :=
  match p.tags with
  | none => acc
  | some ts => ts.foldl addTag acc

/-- The Set of unique tags accumulated over the posts.forEach loop of
createPages, enumerated in insertion order as Array.from does. -/
def collectTags (posts : List Post) : List String :=
  posts.foldl addPostTags []

/-- Resolved path of the blog post template. -/
def blogPostTemplate : String := "./src/templates/blog-post.jsx"

/-- Resolved path of the tag template. -/
def tagTemplate : String := "./src/templates/tag.jsx"

/-- The createPage call for one post at a given index of the loaded list:
previousPostId is null at index 0 and otherwise the id of the post at the
previous index, nextPostId is null at the last index and otherwise the id of
the post at the next index. -/
def postPageCall (posts : List Post) (i : Nat) (p : Post) : PageCall :=
  { path := p.slug
    component := blogPostTemplate
    context :=
      [("id", CtxVal.str p.id),
       ("previousPostId", CtxVal.optStr
          (if i = 0 then none else (posts.get? (i - 1)).map Post.id)),
       ("nextPostId", CtxVal.optStr
          (if i = posts.length - 1 then none else (posts.get? (i + 1)).map Post.id))] }

/-- posts.forEach((post, index) => createPage(...)) of createPages. -/
def postPageCalls (posts : List Post) : List PageCall :=
  posts.enum.map (fun ip => postPageCall posts ip.1 ip.2)

/-- The createPage call for one tag: path /tags/<tag>/, the tag template,
and a context holding only the tag. -/
def tagCall (t : String) : PageCall :=
  { path := "/tags/" ++ t ++ "/"
    component := tagTemplate
    context := [("tag", CtxVal.str t)] }

/-- Array.from(tags).forEach(tag => createPage(...)) of createPages. -/
def tagPageCalls (ts : List String) : List PageCall := ts.map tagCall

/-- The page registrations of exports.createPages after a successful query:
when at least one post was loaded, one blog-post page per loaded post in
order, then one tag page per collected tag in insertion order; with no posts
nothing is registered. -/
def createPages (posts : List Post) : List PageCall :=
  if posts.length > 0 then
    postPageCalls posts ++ tagPageCalls (collectTags posts)
  else []

/-- exports.createPages including its error path: a failed content query is
reported via reporter.panicOnBuild and the hook returns without creating
pages; a successful query result is processed normally. -/
def buildPages (result : Except String (List Post)) : Except String (List PageCall) :=
  match result with
  | Except.error e => Except.error e
  | Except.ok posts => Except.ok (createPages posts)

/-- Number of distinct tag strings appearing in any post's tags field. -/
def distinctTagCount (posts : List Post) : Nat :=
  ((posts.map tagsOf).flatten).toFinset.card

theorem mem_addTag {acc : List String} {s t : String} :
    t ∈ addTag acc s ↔ t ∈ acc ∨ t = s := by
  unfold addTag
  split
  · rename_i hmem
    constructor
    · exact fun h => Or.inl h
    · rintro (h | rfl)
      · exact h
      · exact hmem
  · simp [List.mem_append]

theorem mem_foldl_addTag {ts : List String} {acc : List String} {t : String} :
    t ∈ ts.foldl addTag acc ↔ t ∈ acc ∨ t ∈ ts := by
  induction ts generalizing acc with
  | nil => simp
  | cons s ts ih =>
      simp only [List.foldl_cons, ih, mem_addTag, List.mem_cons]
      tauto

theorem nodup_addTag {acc : List String} {s : String} (h : acc.Nodup) :
    (addTag acc s).Nodup := by
  unfold addTag
  split
  · exact h
  · rename_i hmem
    simpa [List.nodup_append] using ⟨h, fun h2 => hmem h2⟩

theorem nodup_foldl_addTag {ts : List String} {acc : List String} (h : acc.Nodup) :
    (ts.foldl addTag acc).Nodup := by
  induction ts generalizing acc with
  | nil => exact h
  | cons s ts ih => exact ih (nodup_addTag h)

theorem addPostTags_eq (acc : List String) (p : Post) :
    addPostTags acc p = (tagsOf p).foldl addTag acc := by
  unfold addPostTags tagsOf
  cases p.tags <;> rfl

theorem mem_foldl_addPostTags {posts : List Post} {acc : List String} {t : String} :
    t ∈ posts.foldl addPostTags acc ↔ t ∈ acc ∨ ∃ p ∈ posts, t ∈ tagsOf p := by
  induction posts generalizing acc with
  | nil => simp
  | cons p posts ih =>
      simp only [List.foldl_cons, ih, addPostTags_eq, mem_foldl_addTag, List.mem_cons]
      constructor
      · rintro ((h | h) | ⟨q, hq, ht⟩)
        · exact Or.inl h
        · exact Or.inr ⟨p, Or.inl rfl, h⟩
        · exact Or.inr ⟨q, Or.inr hq, ht⟩
      · rintro (h | ⟨q, hq | hq, ht⟩)
        · exact Or.inl (Or.inl h)
        · subst hq
          exact Or.inl (Or.inr ht)
        · exact Or.inr ⟨q, hq, ht⟩

theorem mem_collectTags {posts : List Post} {t : String} :
    t ∈ collectTags posts ↔ ∃ p ∈ posts, t ∈ tagsOf p := by
  unfold collectTags
  rw [mem_foldl_addPostTags]
  simp

theorem nodup_foldl_addPostTags {posts : List Post} {acc : List String} (h : acc.Nodup) :
    (posts.foldl addPostTags acc).Nodup := by
  induction posts generalizing acc with
  | nil => exact h
  | cons p posts ih =>
      rw [List.foldl_cons, addPostTags_eq]
      exact ih (nodup_foldl_addTag h)

theorem nodup_collectTags (posts : List Post) : (collectTags posts).Nodup :=
  nodup_foldl_addPostTags List.nodup_nil

theorem length_collectTags (posts : List Post) :
    (collectTags posts).length = distinctTagCount posts := by
  have hset : (collectTags posts).toFinset = ((posts.map tagsOf).flatten).toFinset := by
    ext t
    simp only [List.mem_toFinset, mem_collectTags, List.mem_flatten, List.mem_map]
    constructor
    · rintro ⟨p, hp, ht⟩
      exact ⟨tagsOf p, ⟨p, hp, rfl⟩, ht⟩
    · rintro ⟨l, ⟨p, hp, rfl⟩, ht⟩
      exact ⟨p, hp, ht⟩
  have hlen := List.toFinset_card_of_nodup (nodup_collectTags posts)
  unfold distinctTagCount
  rw [← hlen, hset]

theorem mem_loadPosts {src : List Post} {p : Post} (h : p ∈ loadPosts src) : p ∈ src := by
  unfold loadPosts at h
  have h2 : p ∈ List.insertionSort dateLe src :=
    (List.take_sublist 1000 _).mem h
  exact (List.perm_insertionSort dateLe src).mem_iff.mp h2

theorem sorted_loadPosts (src : List Post) : List.Sorted dateLe (loadPosts src) :=
  List.Pairwise.sublist (List.take_sublist 1000 _) (List.sorted_insertionSort dateLe src)

theorem mem_blogPostsByTag {src : List Post} {t : String} {p : Post} :
    p ∈ blogPostsByTag src t ↔ p ∈ src ∧ t ∈ tagsOf p := by
  unfold blogPostsByTag
  rw [(List.perm_insertionSort dateGe _).mem_iff, List.mem_filter]
  simp

theorem sorted_blogPostsByTag (src : List Post) (t : String) :
    List.Sorted dateGe (blogPostsByTag src t) :=
  List.sorted_insertionSort dateGe _

theorem templates_ne : blogPostTemplate ≠ tagTemplate := by decide

theorem tagCall_inj {s t : String} (h : tagCall s = tagCall t) : s = t := by
  have := congrArg PageCall.context h
  simp only [tagCall] at this
  have h2 := List.head_eq_of_cons_eq this
  have h3 := congrArg Prod.snd h2
  exact CtxVal.str.inj h3

theorem component_postPageCalls {posts : List Post} {c : PageCall}
    (h : c ∈ postPageCalls posts) : c.component = blogPostTemplate := by
  unfold postPageCalls at h
  obtain ⟨ip, _, rfl⟩ := List.mem_map.mp h
  rfl

theorem tagCall_mem_createPages {posts : List Post} {t : String} :
    tagCall t ∈ createPages posts ↔ t ∈ collectTags posts := by
  unfold createPages
  split
  · rename_i hpos
    rw [List.mem_append]
    constructor
    · rintro (h | h)
      · exact absurd (component_postPageCalls h).symm templates_ne
      · obtain ⟨s, hs, heq⟩ := List.mem_map.mp h
        exact (tagCall_inj heq.symm).symm ▸ hs
    · intro h
      exact Or.inr (List.mem_map.mpr ⟨t, h, rfl⟩)
  · rename_i hpos
    have : posts = [] := by
      cases posts with
      | nil => rfl
      | cons q qs => exact absurd (Nat.succ_pos qs.length) hpos
    subst this
    simp [collectTags]

/-- Sample content source used by concrete witnesses: a post tagged go and a
newer post tagged go and rust, matching the worked example of the spec. -/
def goPost : Post :=
  { id := "A", slug := "/a/", title := "a", description := "da", date := 1,
    tags := some ["go"] }

/-- Second sample post, newer, tagged go and rust. -/
def goRustPost : Post :=
  { id := "B", slug := "/b/", title := "b", description := "db", date := 2,
    tags := some ["go", "rust"] }

/-- Sample content source of the two posts above. -/
def sampleSrc : List Post := [goPost, goRustPost]

/-- C1: for every generated tag page with tag t, every post listed on that
page has t in its tags (soundness), and every loaded post whose tags
contain t appears on that page (completeness). -/
theorem tag_page_sound_complete (src : List Post) (t : String)
    (_h : tagCall t ∈ createPages (loadPosts src)) :
    (∀ p ∈ blogPostsByTag src t, t ∈ tagsOf p) ∧
    (∀ p ∈ loadPosts src, t ∈ tagsOf p → p ∈ blogPostsByTag src t) := by
  refine ⟨fun p hp => (mem_blogPostsByTag.mp hp).2, fun p hp ht => ?_⟩
  exact mem_blogPostsByTag.mpr ⟨mem_loadPosts hp, ht⟩

/-- Witness for C1 at the sample source and tag go. -/
theorem tag_page_sound_complete_witness :
    tagCall "go" ∈ createPages (loadPosts sampleSrc) ∧
    (∀ p ∈ blogPostsByTag sampleSrc "go", "go" ∈ tagsOf p) :=
  ⟨by decide, (tag_page_sound_complete sampleSrc "go" (by decide)).1⟩

/-- C2: for every input sequence of posts, the number of generated tag pages
equals the number of distinct tag strings appearing in any post's tags. -/
theorem tag_page_count_eq_distinct (posts : List Post) :
    ((createPages posts).filter (fun c => c.component == tagTemplate)).length
      = distinctTagCount posts := by
  rw [← length_collectTags]
  unfold createPages
  split
  · rw [List.filter_append]
    have h1 : (postPageCalls posts).filter (fun c => c.component == tagTemplate) = [] := by
      rw [List.filter_eq_nil_iff]
      intro c hc
      rw [component_postPageCalls hc]
      decide
    have h2 : (tagPageCalls (collectTags posts)).filter
        (fun c => c.component == tagTemplate) = tagPageCalls (collectTags posts) := by
      rw [List.filter_eq_self]
      intro c hc
      obtain ⟨s, _, rfl⟩ := List.mem_map.mp hc
      exact beq_self_eq_true tagTemplate
    rw [h1, h2, List.nil_append]
    unfold tagPageCalls
    rw [List.length_map]
  · rename_i hpos
    cases posts with
    | nil => rfl
    | cons q qs => exact absurd (Nat.succ_pos qs.length) hpos

/-- C3: on every generated tag page the listed posts are ordered by date
descending. -/
theorem tag_page_sorted_desc (src : List Post) (t : String)
    (_h : tagCall t ∈ createPages (loadPosts src)) :
    List.Sorted dateGe (blogPostsByTag src t) :=
  sorted_blogPostsByTag src t

/-- Witness for C3 at the sample source and tag go. -/
theorem tag_page_sorted_desc_witness :
    tagCall "go" ∈ createPages (loadPosts sampleSrc) ∧
    List.Sorted dateGe (blogPostsByTag sampleSrc "go") :=
  ⟨by decide, tag_page_sorted_desc sampleSrc "go" (by decide)⟩

/-- C6: every generated tag page's post list is non-empty, because tags are
only collected from posts that declare them. -/
theorem tag_page_nonempty (src : List Post) (t : String)
    (h : tagCall t ∈ createPages (loadPosts src)) :
    blogPostsByTag src t ≠ [] := by
  have ht : t ∈ collectTags (loadPosts src) := tagCall_mem_createPages.mp h
  obtain ⟨p, hp, hpt⟩ := mem_collectTags.mp ht
  intro hnil
  have hmem : p ∈ blogPostsByTag src t := mem_blogPostsByTag.mpr ⟨mem_loadPosts hp, hpt⟩
  rw [hnil] at hmem
  exact List.not_mem_nil p hmem

/-- Witness for C6 at the sample source and tag rust. -/
theorem tag_page_nonempty_witness :
    tagCall "rust" ∈ createPages (loadPosts sampleSrc) ∧
    blogPostsByTag sampleSrc "rust" ≠ [] :=
  ⟨by decide, tag_page_nonempty sampleSrc "rust" (by decide)⟩

theorem addPostTags_untagged {p : Post} (h : p.tags = none ∨ p.tags = some [])
    (acc : List String) : addPostTags acc p = acc := by
  rcases h with h | h <;> simp [addPostTags, h]

theorem tagsOf_untagged {p : Post} (h : p.tags = none ∨ p.tags = some []) :
    tagsOf p = [] := by
  rcases h with h | h <;> simp [tagsOf, h]

/-- C7: a post whose tags field is missing or empty contributes no tags,
appears on no tag page, and causes no build error. -/
theorem untagged_post_harmless (src₁ src₂ : List Post) (p : Post)
    (h : p.tags = none ∨ p.tags = some []) :
    collectTags (src₁ ++ p :: src₂) = collectTags (src₁ ++ src₂) ∧
    (∀ src t, p ∉ blogPostsByTag src t) ∧
    (buildPages (Except.ok (loadPosts (src₁ ++ p :: src₂)))).isOk = true := by
  refine ⟨?_, ?_, rfl⟩
  · unfold collectTags
    rw [List.foldl_append, List.foldl_append, List.foldl_cons,
      addPostTags_untagged h]
  · intro src t hmem
    have ht : t ∈ tagsOf p := (mem_blogPostsByTag.mp hmem).2
    rw [tagsOf_untagged h] at ht
    exact List.not_mem_nil t ht

/-- Untagged sample post: its frontmatter has no tags field. -/
def untaggedPost : Post :=
  { id := "U", slug := "/u/", title := "u", description := "du", date := 3,
    tags := none }

/-- Witness for C7 at the sample source extended with an untagged post. -/
theorem untagged_post_harmless_witness :
    (untaggedPost.tags = none ∨ untaggedPost.tags = some []) ∧
    collectTags (sampleSrc ++ untaggedPost :: []) = collectTags (sampleSrc ++ []) :=
  ⟨Or.inl rfl, (untagged_post_harmless sampleSrc [] untaggedPost (Or.inl rfl)).1⟩

theorem tagCall_injective : Function.Injective tagCall :=
  fun _ _ h => tagCall_inj h

/-- C8: tag strings are used exactly as authored with no normalization; two
distinct tag strings, in particular two differing only in letter case, are
collected as two distinct tags and produce two distinct tag pages. -/
theorem tags_no_normalization (posts : List Post) (p₁ p₂ : Post) (t₁ t₂ : String)
    (h₁ : p₁ ∈ posts) (h₂ : p₂ ∈ posts) (ht₁ : t₁ ∈ tagsOf p₁) (ht₂ : t₂ ∈ tagsOf p₂)
    (hne : t₁ ≠ t₂) :
    (∀ t, t ∈ collectTags posts ↔ ∃ p ∈ posts, t ∈ tagsOf p) ∧
    t₁ ∈ collectTags posts ∧ t₂ ∈ collectTags posts ∧
    tagCall t₁ ∈ createPages posts ∧ tagCall t₂ ∈ createPages posts ∧
    tagCall t₁ ≠ tagCall t₂ := by
  have hm₁ : t₁ ∈ collectTags posts := mem_collectTags.mpr ⟨p₁, h₁, ht₁⟩
  have hm₂ : t₂ ∈ collectTags posts := mem_collectTags.mpr ⟨p₂, h₂, ht₂⟩
  exact ⟨fun t => mem_collectTags, hm₁, hm₂,
    tagCall_mem_createPages.mpr hm₁, tagCall_mem_createPages.mpr hm₂,
    fun hEq => hne (tagCall_inj hEq)⟩

/-- Sample post tagged PHP in upper case. -/
def phpUpperPost : Post :=
  { id := "P1", slug := "/p1/", title := "p1", description := "d1", date := 4,
    tags := some ["PHP"] }

/-- Sample post tagged php in lower case. -/
def phpLowerPost : Post :=
  { id := "P2", slug := "/p2/", title := "p2", description := "d2", date := 5,
    tags := some ["php"] }

/-- Witness for C8: PHP and php yield two distinct tag pages. -/
theorem tags_no_normalization_witness :
    "PHP" ∈ collectTags [phpUpperPost, phpLowerPost] ∧
    "php" ∈ collectTags [phpUpperPost, phpLowerPost] ∧
    tagCall "PHP" ≠ tagCall "php" := by
  have h := tags_no_normalization [phpUpperPost, phpLowerPost] phpUpperPost phpLowerPost
    "PHP" "php" (by decide) (by decide) (by decide) (by decide) (by decide)
  exact ⟨h.2.1, h.2.2.1, h.2.2.2.2.2⟩

/-- C9: the build is deterministic; identical input post sequences produce
identical page registration lists. -/
theorem build_deterministic (src₁ src₂ : List Post) (h : src₁ = src₂) :
    buildPages (Except.ok (loadPosts src₁)) = buildPages (Except.ok (loadPosts src₂)) ∧
    createPages (loadPosts src₁) = createPages (loadPosts src₂) := by
  subst h
  exact ⟨rfl, rfl⟩

/-- Witness for C9 at the sample source. -/
theorem build_deterministic_witness :
    createPages (loadPosts sampleSrc) = createPages (loadPosts sampleSrc) :=
  (build_deterministic sampleSrc sampleSrc rfl).2

/-- C5: post pages are emitted for each loaded post in date-ascending order,
each carrying the post's slug as path, previousPostId the id of the
chronologically previous post (null at index 0) and nextPostId the id of the
chronologically next post (null at the last index). -/
theorem post_pages_ordered_linked (src : List Post) (i : Nat)
    (h : i < (loadPosts src).length) :
    List.Sorted dateLe (loadPosts src) ∧
    (postPageCalls (loadPosts src)).length = (loadPosts src).length ∧
    (postPageCalls (loadPosts src)).get? i = some
      { path := ((loadPosts src).get ⟨i, h⟩).slug
        component := blogPostTemplate
        context :=
          [("id", CtxVal.str ((loadPosts src).get ⟨i, h⟩).id),
           ("previousPostId", CtxVal.optStr
              (if i = 0 then none
               else some (((loadPosts src).get
                 ⟨i - 1, Nat.lt_of_le_of_lt (Nat.sub_le i 1) h⟩).id))),
           ("nextPostId", CtxVal.optStr
              (if hl : i = (loadPosts src).length - 1 then none
               else some (((loadPosts src).get ⟨i + 1, by omega⟩).id)))] } := by
  refine ⟨sorted_loadPosts src, ?_, ?_⟩
  · unfold postPageCalls
    rw [List.length_map, List.enum_length]
  · unfold postPageCalls
    rw [List.get?_map, List.get?_enum, List.get?_eq_get h, Option.map_some',
      Option.map_some']
    congr 1
    unfold postPageCall
    congr 1
    have hprev : (if i = 0 then none
        else ((loadPosts src).get? (i - 1)).map Post.id) =
        (if i = 0 then none
         else some (((loadPosts src).get
           ⟨i - 1, Nat.lt_of_le_of_lt (Nat.sub_le i 1) h⟩).id)) := by
      by_cases h0 : i = 0
      · rw [if_pos h0, if_pos h0]
      · rw [if_neg h0, if_neg h0,
          List.get?_eq_get (Nat.lt_of_le_of_lt (Nat.sub_le i 1) h), Option.map_some']
    have hnext : (if i = (loadPosts src).length - 1 then none
        else ((loadPosts src).get? (i + 1)).map Post.id) =
        (if hl : i = (loadPosts src).length - 1 then none
         else some (((loadPosts src).get ⟨i + 1, by omega⟩).id)) := by
      by_cases hl : i = (loadPosts src).length - 1
      · rw [if_pos hl, dif_pos hl]
      · rw [if_neg hl, dif_neg hl,
          List.get?_eq_get (show i + 1 < (loadPosts src).length by omega), Option.map_some']
    rw [hprev, hnext]

/-- Witness for C5 at the sample source and index 0. -/
theorem post_pages_ordered_linked_witness :
    0 < (loadPosts sampleSrc).length ∧
    List.Sorted dateLe (loadPosts sampleSrc) ∧
    (postPageCalls (loadPosts sampleSrc)).length = (loadPosts sampleSrc).length :=
  ⟨by decide, (post_pages_ordered_linked sampleSrc 0 (by decide)).1,
    (post_pages_ordered_linked sampleSrc 0 (by decide)).2.1⟩

/-- Sample one-post source used to exhibit the shape of a tag page context. -/
def gatsbyPost : Post :=
  { id := "G", slug := "/gatsby-post/", title := "g", description := "dg",
    date := 7, tags := some ["gatsby"] }

/-- Sample source holding only the gatsby post. -/
def gatsbySrc : List Post := [gatsbyPost]

/-- C4 counterexample: the tag page registered for the one-post source has a
context whose only field is tag; there is no posts field, so the registration
does not pass a context of shape with both a tag and a posts field. -/
theorem tag_context_shape_counterexample :
    (createPages (loadPosts gatsbySrc)).filter (fun c => c.component == tagTemplate)
      = [tagCall "gatsby"] ∧
    (tagCall "gatsby").context.map Prod.fst = ["tag"] ∧
    "posts" ∉ (tagCall "gatsby").context.map Prod.fst := by decide

/-- C4 amended: for every collected tag t exactly one page registration is
emitted, with path /tags/<t>/, the tag template, and a context holding only
the tag; the matching posts are not passed in the context but are produced by
the tag template's own BlogPostsByTag query, which returns exactly the posts
whose tags include t. -/
theorem tag_page_descriptor (src : List Post) (t : String)
    (h : t ∈ collectTags (loadPosts src)) :
    (createPages (loadPosts src)).count (tagCall t) = 1 ∧
    (tagCall t).path = "/tags/" ++ t ++ "/" ∧
    (tagCall t).component = tagTemplate ∧
    (tagCall t).context = [("tag", CtxVal.str t)] ∧
    (∀ p, p ∈ blogPostsByTag src t ↔ p ∈ src ∧ t ∈ tagsOf p) := by
  refine ⟨?_, rfl, rfl, rfl, fun p => mem_blogPostsByTag⟩
  have hne : loadPosts src ≠ [] := by
    obtain ⟨p, hp, _⟩ := mem_collectTags.mp h
    intro hnil
    rw [hnil] at hp
    exact List.not_mem_nil p hp
  unfold createPages
  rw [if_pos (List.length_pos.mpr hne), List.count_append]
  have h1 : (postPageCalls (loadPosts src)).count (tagCall t) = 0 := by
    rw [List.count_eq_zero]
    intro hmem
    exact templates_ne (component_postPageCalls hmem).symm
  have h2 : (tagPageCalls (collectTags (loadPosts src))).count (tagCall t)
      = (collectTags (loadPosts src)).count t := by
    unfold tagPageCalls
    exact List.count_map_of_injective _ tagCall tagCall_injective t
  rw [h1, h2, List.count_eq_one_of_mem (nodup_collectTags _) h]

/-- Witness for C4 amended at the one-post gatsby source. -/
theorem tag_page_descriptor_witness :
    "gatsby" ∈ collectTags (loadPosts gatsbySrc) ∧
    (createPages (loadPosts gatsbySrc)).count (tagCall "gatsby") = 1 :=
  ⟨by decide, (tag_page_descriptor gatsbySrc "gatsby" (by decide)).1⟩

/-- Family of posts used to exercise the 1000-post query limit: post i has
date i and tag go; the post at index 1000 has a distinguishing slug. -/
def bigPost (i : Nat) : Post :=
  { id := toString i
    slug := if i = 1000 then "/beyond-limit/" else "/early-post/"
    title := "t"
    description := "d"
    date := i
    tags := some ["go"] }

/-- Content source of 1001 posts in date-ascending order. -/
def bigSrc : List Post := (List.range 1001).map bigPost

theorem sorted_bigSrc : List.Sorted dateLe bigSrc := by
  unfold bigSrc
  rw [List.Sorted, List.pairwise_map]
  exact (List.pairwise_le_range 1001).imp (fun hle => hle)

theorem loadPosts_bigSrc : loadPosts bigSrc = (List.range 1000).map bigPost := by
  unfold loadPosts
  rw [List.Sorted.insertionSort_eq sorted_bigSrc]
  unfold bigSrc
  rw [← List.map_take, List.take_range]
  norm_num

theorem bigPost_date (i : Nat) : (bigPost i).date = i := rfl

theorem bigPost_beyond_not_loaded : bigPost 1000 ∉ loadPosts bigSrc := by
  rw [loadPosts_bigSrc]
  intro hmem
  obtain ⟨i, hi, heq⟩ := List.mem_map.mp hmem
  have hd : i = 1000 := congrArg Post.date heq
  have := List.mem_range.mp hi
  omega

theorem bigPost_beyond_mem_src : bigPost 1000 ∈ bigSrc :=
  List.mem_map_of_mem bigPost (List.mem_range.mpr (by norm_num))

theorem loaded_slug_ne_beyond :
    ∀ q ∈ loadPosts bigSrc, q.slug ≠ (bigPost 1000).slug := by
  rw [loadPosts_bigSrc]
  intro q hq
  obtain ⟨i, hi, rfl⟩ := List.mem_map.mp hq
  have hlt := List.mem_range.mp hi
  have hne : i ≠ 1000 := by omega
  have h1 : (bigPost i).slug = "/early-post/" := by
    show (if i = 1000 then "/beyond-limit/" else "/early-post/") = "/early-post/"
    rw [if_neg hne]
  have h2 : (bigPost 1000).slug = "/beyond-limit/" := rfl
  rw [h1, h2]
  decide

/-- C10 counterexample: with 1001 posts all tagged go, the newest post is
outside the 1000-post limit, yet the go tag page is generated and the
unlimited BlogPostsByTag query lists that post on it. -/
theorem limit_tag_page_counterexample :
    bigPost 1000 ∈ bigSrc ∧
    bigPost 1000 ∉ loadPosts bigSrc ∧
    tagCall "go" ∈ createPages (loadPosts bigSrc) ∧
    bigPost 1000 ∈ blogPostsByTag bigSrc "go" := by
  have hgo : "go" ∈ tagsOf (bigPost 0) := by
    unfold tagsOf bigPost
    decide
  have hmem0 : bigPost 0 ∈ loadPosts bigSrc := by
    rw [loadPosts_bigSrc]
    exact List.mem_map_of_mem bigPost (List.mem_range.mpr (by norm_num))
  refine ⟨bigPost_beyond_mem_src, bigPost_beyond_not_loaded, ?_, ?_⟩
  · exact tagCall_mem_createPages.mpr (mem_collectTags.mpr ⟨bigPost 0, hmem0, hgo⟩)
  · exact mem_blogPostsByTag.mpr ⟨bigPost_beyond_mem_src, hgo⟩

/-- C10 amended: a post beyond the 1000-post limit gets no post page and
contributes no tags (every registered post page path is the slug of a loaded
post, and every collected tag comes from a loaded post), but it still appears
in the unlimited tag-listing query of each of its tags, so it is listed on
any tag page generated for a tag it shares with a loaded post. -/
theorem limit_excludes_from_build (src : List Post) (p : Post)
    (hmem : p ∈ src) (_hout : p ∉ loadPosts src)
    (hslug : ∀ q ∈ loadPosts src, q.slug ≠ p.slug) :
    (∀ c ∈ postPageCalls (loadPosts src), c.path ≠ p.slug) ∧
    (∀ t ∈ collectTags (loadPosts src), ∃ q ∈ loadPosts src, t ∈ tagsOf q) ∧
    (∀ t ∈ tagsOf p, p ∈ blogPostsByTag src t) := by
  refine ⟨?_, ?_, ?_⟩
  · intro c hc
    unfold postPageCalls at hc
    obtain ⟨ip, hip, rfl⟩ := List.mem_map.mp hc
    rw [List.enum_eq_zip_range] at hip
    have hsnd : ip.2 ∈ loadPosts src := by
      obtain ⟨i, a⟩ := ip
      exact (List.of_mem_zip hip).2
    exact hslug ip.2 hsnd
  · intro t ht
    exact mem_collectTags.mp ht
  · intro t ht
    exact mem_blogPostsByTag.mpr ⟨hmem, ht⟩

/-- Witness for C10 amended at the 1001-post source and its newest post. -/
theorem limit_excludes_from_build_witness :
    (bigPost 1000 ∈ bigSrc ∧ bigPost 1000 ∉ loadPosts bigSrc) ∧
    (∀ c ∈ postPageCalls (loadPosts bigSrc), c.path ≠ (bigPost 1000).slug) :=
  ⟨⟨bigPost_beyond_mem_src, bigPost_beyond_not_loaded⟩,
    (limit_excludes_from_build bigSrc (bigPost 1000) bigPost_beyond_mem_src
      bigPost_beyond_not_loaded loaded_slug_ne_beyond).1⟩
